import Mathlib

/-!
Verification development for the course-generator repository.

The definitions below are shallow embeddings, translated from
src/server/gemini.ts and src/unnamed/part_000 of the repository.
Each definition's doc comment names the source function and lines it
embeds.  External effects (the Gemini network call, JSON.parse, the
image service, storage and notification collaborators) are modelled as
explicit parameters or as effect lists, as noted at each definition.
-/

namespace CourseGen

/-- JavaScript core whitespace characters, as matched by the regex
class used in gemini.ts (space, tab, newline, carriage return,
vertical tab, form feed; astral/unicode space classes are not produced
by the code paths modelled here). -/
def jsWhitespaceChar (c : Char) : Bool :=
  c = ' ' || c = '\t' || c = '\n' || c = '\r' || c = '\x0b' || c = '\x0c'

/-- JavaScript String.prototype.trim, over the whitespace class above. -/
def jsTrim (s : String) : String :=
  ⟨((s.data.dropWhile jsWhitespaceChar).reverse.dropWhile jsWhitespaceChar).reverse⟩

/-- One step of the scan of repairJSON (src/server/gemini.ts lines
21-66).  State: output characters accumulated in reverse, the inString
flag, the escapedNext flag, and the previous raw character (none at
index 0, matching the empty-string prevChar of the source).  The final
branch mirrors the source's dead `inString && char === '"'` case. -/
def repairStep : List Char × Bool × Bool × Option Char → Char →
    List Char × Bool × Bool × Option Char
  | (res, inString, escapedNext, prev), c =>
    if escapedNext then (c :: res, inString, false, some c)
    else if c = '\\' then (c :: res, inString, true, some c)
    else if c = '"' then (c :: res, !inString, false, some c)
    else if inString ∧ c = '"' ∧ prev ≠ some '\\' then
      ('"' :: '\\' :: res, inString, false, some c)
    else (c :: res, inString, false, some c)

/-- repairJSON (src/server/gemini.ts lines 21-66): single forward scan
that is meant to escape unescaped quotes inside string literals. -/
def repairJSON (s : String) : String :=
  ⟨(s.data.foldl repairStep ([], false, false, none)).1.reverse⟩

/-- JSON values, as produced by a successful JSON.parse of the model's
response text.  (undefined is represented as an absent field.) -/
inductive Json where
  | null : Json
  | boolean : Bool → Json
  | num : Int → Json
  | str : String → Json
  | arr : List Json → Json
  | obj : List (String × Json) → Json

/-- First binding of a key in an object's field list. -/
def lookupField (k : String) : List (String × Json) → Option Json
  | [] => none
  | (k', v) :: rest => if k' = k then some v else lookupField k rest

/-- JavaScript property read v.k: the field when v is an object that
has it, undefined (none) otherwise.  (Reads on null throw; callers
that can receive null handle that case explicitly.) -/
def jsonField (v : Json) (k : String) : Option Json :=
  match v with
  | .obj fields => lookupField k fields
  | _ => none

/-- JavaScript truthiness of a JSON value. -/
def truthy : Json → Bool
  | .null => false
  | .boolean b => b
  | .num n => n != 0
  | .str s => s != ""
  | .arr _ => true
  | .obj _ => true

/-- Truthiness of a property read (undefined is falsy). -/
def truthyOpt : Option Json → Bool
  | none => false
  | some v => truthy v

/-- Array.isArray of a property read. -/
def isArrOpt : Option Json → Bool
  | some (.arr _) => true
  | _ => false

/-- The outline validation applied by generateCourse
(src/server/gemini.ts lines 241-243): reject unless parsed.course_title
is truthy and parsed.modules is an array. -/
def generateCourseAccepts (v : Json) : Bool :=
  truthyOpt (jsonField v "course_title") && isArrOpt (jsonField v "modules")

/-- Whether the property read m.lessons.length evaluates without a
TypeError: m must be an object whose lessons field is present and
non-null.  Used by the success log of generateCourse
(parsed.modules.reduce over m.lessons.length) and of regenerateModule
(result.lessons.length). -/
def lessonsLengthOk (m : Json) : Bool :=
  match m with
  | .obj fields =>
    match lookupField "lessons" fields with
    | some .null => false
    | some _ => true
    | none => false
  | _ => false

/-- Is the optional field a string when present (zod z.string().optional())? -/
def optStrOpt : Option Json → Bool
  | none => true
  | some (.str _) => true
  | some _ => false

/-- Is the field present and a string (zod z.string())? -/
def isStrOpt : Option Json → Bool
  | some (.str _) => true
  | _ => false

/-- Lesson object check of generatedCourseSchema
(src/unnamed/part_000 lines 406-416): an object with string
lesson_title and content. -/
def schemaLessonAccepts (v : Json) : Bool :=
  match v with
  | .obj _ => isStrOpt (jsonField v "lesson_title") && isStrOpt (jsonField v "content")
  | _ => false

/-- Module object check of generatedCourseSchema: an object with a
string module_title and an array of valid lessons. -/
def schemaModuleAccepts (v : Json) : Bool :=
  match v with
  | .obj _ =>
    isStrOpt (jsonField v "module_title") &&
      (match jsonField v "lessons" with
       | some (.arr ls) => ls.all schemaLessonAccepts
       | _ => false)
  | _ => false

/-- generatedCourseSchema (src/unnamed/part_000 lines 406-416): the zod
schema the course-creation route applies to a generated outline.
z.string() accepts the empty string and z.array accepts the empty
array; description is optional. -/
def generatedCourseSchemaAccepts (v : Json) : Bool :=
  match v with
  | .obj _ =>
    isStrOpt (jsonField v "course_title") &&
      optStrOpt (jsonField v "description") &&
      (match jsonField v "modules" with
       | some (.arr ms) => ms.all schemaModuleAccepts
       | _ => false)
  | _ => false

/-- Code-fence stripping shared by generateCourse, regenerateModule and
regenerateLesson (src/server/gemini.ts lines 216-226, 320-323, 388-391):
trim, drop a leading three-backtick-json marker (7 chars), drop a
leading bare three-backtick marker, drop a trailing three-backtick
marker, trim again before parsing.  In all three functions the final
trim happens immediately before JSON.parse, so the composite is the
same. -/
def strStartsWith (s p : String) : Bool :=
  s.data.take p.data.length == p.data

def strEndsWith (s p : String) : Bool :=
  s.data.reverse.take p.data.length == p.data.reverse

def strDrop (s : String) (n : Nat) : String :=
  ⟨s.data.drop n⟩

def strDropRight (s : String) (n : Nat) : String :=
  ⟨s.data.take (s.data.length - n)⟩

def stripFences (text : String) : String :=
  let j := jsTrim text
  let j := if strStartsWith j "```json" then strDrop j 7 else j
  let j := if strStartsWith j "```" then strDrop j 3 else j
  let j := if strEndsWith j "```" then strDropRight j 3 else j
  jsTrim j

/-- Failure modes of the text-processing pipelines.  parseError carries
the raw JSON.parse error; typeError models a TypeError thrown by a
property access in a success log; wrapped is the uniform error
generateCourse's outer catch substitutes for every internal failure
("Failed to generate course content. Please try again."). -/
inductive PipeErr where
  | emptyResponse : PipeErr
  | parseError : String → PipeErr
  | invalidStructure : PipeErr
  | typeError : PipeErr
  | wrapped : PipeErr

/-- The validation and success logging of generateCourse after a
successful parse (src/server/gemini.ts lines 241-250): a null parse
result crashes on parsed.course_title; then the two-condition check;
then the success log reduces over parsed.modules accessing
m.lessons.length, throwing when a module element lacks a non-null
lessons property. -/
def validateParsedCourse (v : Json) : Except PipeErr Json :=
  match v with
  | .null => .error .typeError
  | _ =>
    if generateCourseAccepts v then
      match jsonField v "modules" with
      | some (.arr ms) =>
        if ms.all lessonsLengthOk then .ok v else .error .typeError
      | _ => .error .invalidStructure
    else .error .invalidStructure

/-- The response-text processing of generateCourse
(src/server/gemini.ts lines 207-253), before the outer catch.  The
network call is abstracted away: the input is the response text
(none = undefined) and a parse oracle standing for JSON.parse.  On a
first parse failure the text is repaired once and re-parsed once;
a second failure is fatal. -/
def generateCourseInner (parse : String → Except String Json)
    (text : Option String) : Except PipeErr Json :=
  match text with
  | none => .error .emptyResponse
  | some t =>
    if t = "" then .error .emptyResponse
    else
      let j := stripFences t
      match parse j with
      | .ok v => validateParsedCourse v
      | .error _ =>
        match parse (repairJSON j) with
        | .ok v => validateParsedCourse v
        | .error e => .error (.parseError e)

/-- generateCourse's observable text-processing outcome: its outer
catch (src/server/gemini.ts lines 254-257) replaces every internal
failure with one uniform error. -/
def generateCoursePipeline (parse : String → Except String Json)
    (text : Option String) : Except PipeErr Json :=
  match generateCourseInner parse text with
  | .ok v => .ok v
  | .error _ => .error .wrapped

/-- The response-text processing of regenerateModule
(src/server/gemini.ts lines 311-328): empty-text check, fence
stripping, a single JSON.parse with no repair pass, then the success
log accesses result.module_title and result.lessons.length (a
TypeError when the parsed value is null or lacks a non-null lessons
field).  The catch rethrows the raw error. -/
def regenerateModulePipeline (parse : String → Except String Json)
    (text : Option String) : Except PipeErr Json :=
  match text with
  | none => .error .emptyResponse
  | some t =>
    if t = "" then .error .emptyResponse
    else
      match parse (stripFences t) with
      | .error e => .error (.parseError e)
      | .ok v =>
        if lessonsLengthOk v then .ok v else .error .typeError

/-- The response-text processing of regenerateLesson
(src/server/gemini.ts lines 379-396): empty-text check, fence
stripping, a single JSON.parse with no repair pass and no structure
validation; the success log accesses result.lesson_title, a TypeError
only when the parsed value is null.  The catch rethrows the raw
error. -/
def regenerateLessonPipeline (parse : String → Except String Json)
    (text : Option String) : Except PipeErr Json :=
  match text with
  | none => .error .emptyResponse
  | some t =>
    if t = "" then .error .emptyResponse
    else
      match parse (stripFences t) with
      | .error e => .error (.parseError e)
      | .ok v =>
        match v with
        | .null => .error .typeError
        | _ => .ok v

/-- GROUNDING_MODELS (src/server/gemini.ts lines 6-9). -/
def GROUNDING_MODELS : List String := ["gemini-2.5-pro", "gemini-2.5-flash"]

/-- FALLBACK_MODELS (src/server/gemini.ts lines 11-13). -/
def FALLBACK_MODELS : List String := ["gemini-2.5-flash-lite"]

/-- The model sequence of generateWithFallback (src/server/gemini.ts
lines 74-76): grounded tier first when grounding is requested, fast
tier first otherwise. -/
def modelSequence (useGrounding : Bool) : List String :=
  if useGrounding then GROUNDING_MODELS ++ FALLBACK_MODELS
  else FALLBACK_MODELS ++ GROUNDING_MODELS

/-- Per-attempt grounding flag (src/server/gemini.ts lines 79-80):
grounding is enabled only when requested and the model is in the
grounded tier. -/
def attemptFlag (useGrounding : Bool) (m : String) : Bool :=
  useGrounding && GROUNDING_MODELS.contains m

/-- The retry loop of generateWithFallback (src/server/gemini.ts lines
78-120), instrumented with the list of attempts it issues.  The
network call is a parameter from (model, groundingFlag) to a result;
each iteration issues exactly one call, a success returns immediately
with the model name and grounding flag, a failure records the error
and advances; when the sequence is exhausted the last recorded error
is thrown (the default standing for the initial null lastError). -/
def runCascade {R : Type} (call : String → Bool → Except String R)
    (useGrounding : Bool) :
    List String → String → List (String × Bool) × Except String (R × String × Bool)
  | [], lastError => ([], .error lastError)
  | m :: rest, _lastError =>
    let fl := attemptFlag useGrounding m
    match call m fl with
    | .ok r => ([(m, fl)], .ok (r, m, fl))
    | .error e =>
      let next := runCascade call useGrounding rest e
      ((m, fl) :: next.1, next.2)

/-- generateWithFallback (src/server/gemini.ts lines 68-121), as the
instrumented cascade over the full model sequence; the default error
is the message of the Error constructed when lastError is null. -/
def generateWithFallback {R : Type} (call : String → Bool → Except String R)
    (useGrounding : Bool) :
    List (String × Bool) × Except String (R × String × Bool) :=
  runCascade call useGrounding (modelSequence useGrounding)
    "All models failed to generate content"

/-- A generated lesson outline (wire shape lesson_title/content). -/
structure LessonOutline where
  lesson_title : String
  content : String
deriving DecidableEq

/-- A generated module outline (wire shape module_title/lessons). -/
structure ModuleOutline where
  module_title : String
  lessons : List LessonOutline
deriving DecidableEq

/-- Greedy match of the separator regex (newline, any run of
whitespace, newline) at the head of the character list: the source
splits lesson content with content.split of that regex.  Returns the
match length: the leading newline, then the longest whitespace run
containing a later newline, ending at the last newline of that run. -/
def sepMatchLen : List Char → Option Nat
  | [] => none
  | c :: rest =>
    if c = '\n' then
      match ((rest.takeWhile jsWhitespaceChar).enum.filter
          (fun p => p.2 = '\n')).getLast? with
      | some (k, _) => some (k + 2)
      | none => none
    else none

/-- JavaScript String.prototype.split on the blank-line regex: scan
left to right, splitting at each leftmost greedy separator match.
Written with a fuel argument (one unit per scanned position, a
separator match always consumes at least one position) so the function
is structurally recursive and evaluates inside the kernel; callers
supply the input length as fuel, which always suffices. -/
def splitParagraphsF : Nat → List Char → List Char → List (List Char)
  | _, [], cur => [cur.reverse]
  | 0, cs, cur => [(cs.reverse ++ cur).reverse]
  | fuel + 1, c :: rest, cur =>
    match sepMatchLen (c :: rest) with
    | some len => cur.reverse :: splitParagraphsF fuel ((c :: rest).drop len) []
    | none => splitParagraphsF fuel rest (c :: cur)

/-- Paragraph count of lesson content
(content.split(blank-line regex).filter(p nonblank).length), as
computed at src/server/gemini.ts lines 614, 641, 770, 793. -/
def paragraphCount (content : String) : Nat :=
  ((splitParagraphsF content.data.length content.data []).filter
    (fun p => p.any (fun c => ! jsWhitespaceChar c))).length

/-- JavaScript substring(0, 150).replace(/[#*_\n]/g, ' ').trim() of the
lesson content, then the fixed prompt template:
generateFallbackImagePrompt (src/server/gemini.ts lines 594-597). -/
def generateFallbackImagePrompt (courseTitle _moduleTitle lessonTitle lessonContent : String) :
    String :=
  let contentPreview :=
    jsTrim ⟨(lessonContent.data.take 150).map
      (fun c => if c = '#' ∨ c = '*' ∨ c = '_' ∨ c = '\n' then ' ' else c)⟩
  "Professional educational illustration for \"" ++ lessonTitle ++
    "\" in a course about \"" ++ courseTitle ++ "\". Visual concept: " ++
    contentPreview ++
    ". Style: clean, modern, minimalist illustration with soft colors. NO TEXT, NO WORDS, NO LABELS, NO CAPTIONS in the image - purely visual elements only. Focus on icons, objects, people, or abstract shapes to represent the concept."

/-- ImagePlan (src/server/gemini.ts lines 578-582). -/
structure ImagePlan where
  imagePrompt : String
  imageAlt : String
  placement : Int
deriving DecidableEq

/-- LessonMediaPlan (src/server/gemini.ts lines 584-587). -/
structure LessonMediaPlan where
  lessonIndex : Nat
  images : List ImagePlan
deriving DecidableEq

/-- ModuleMediaPlan (src/server/gemini.ts lines 589-592). -/
structure ModuleMediaPlan where
  moduleIndex : Nat
  lessons : List LessonMediaPlan
deriving DecidableEq

/-- Total lesson count (modules.reduce summing m.lessons.length). -/
def totalLessonCount (modules : List ModuleOutline) : Nat :=
  (modules.map (fun m => m.lessons.length)).sum

/-- Total image count of a plan (the nested reduce at
src/server/gemini.ts lines 786-788). -/
def totalImagesOf (plan : List ModuleMediaPlan) : Nat :=
  (plan.map (fun mp => (mp.lessons.map (fun lp => lp.images.length)).sum)).sum

/-- The course-wide image cap of generateFallbackMediaPlan
(src/server/gemini.ts line 607): Math.min(moduleCount,
Math.ceil(totalLessons / 5)). -/
def fallbackTarget (modules : List ModuleOutline) : Nat :=
  min modules.length ((totalLessonCount modules + 4) / 5)

/-- The per-lesson body of generateFallbackMediaPlan's inner map
(src/server/gemini.ts lines 613-628), with the mutable imagesAdded
counter threaded explicitly: only the first lesson of a module gets an
image, and only while the counter is below the target. -/
def fallbackLessonsGo (courseTitle moduleTitle : String) (target : Nat) :
    Nat → Nat → List LessonOutline → List LessonMediaPlan × Nat
  | _, added, [] => ([], added)
  | li, added, l :: ls =>
    if li = 0 ∧ added < target then
      let pc := paragraphCount l.content
      let img : ImagePlan :=
        { imagePrompt := generateFallbackImagePrompt courseTitle moduleTitle
            l.lesson_title l.content
          imageAlt := "Illustration for " ++ l.lesson_title
          placement := (max 1 pc : Nat) }
      let rest := fallbackLessonsGo courseTitle moduleTitle target (li + 1) (added + 1) ls
      ({ lessonIndex := li, images := [img] } :: rest.1, rest.2)
    else
      let rest := fallbackLessonsGo courseTitle moduleTitle target (li + 1) added ls
      ({ lessonIndex := li, images := [] } :: rest.1, rest.2)

/-- The outer map of generateFallbackMediaPlan over modules
(src/server/gemini.ts lines 611-630). -/
def fallbackModulesGo (courseTitle : String) (target : Nat) :
    Nat → Nat → List ModuleOutline → List ModuleMediaPlan
  | _, _, [] => []
  | mi, added, m :: ms =>
    let entry := fallbackLessonsGo courseTitle m.module_title target 0 added m.lessons
    { moduleIndex := mi, lessons := entry.1 } ::
      fallbackModulesGo courseTitle target (mi + 1) entry.2 ms

/-- generateFallbackMediaPlan (src/server/gemini.ts lines 600-632):
the fully local conservative plan. -/
def generateFallbackMediaPlan (courseTitle : String)
    (modules : List ModuleOutline) : List ModuleMediaPlan :=
  fallbackModulesGo courseTitle (fallbackTarget modules) 0 0 modules

/-- OldLessonFormat (src/server/gemini.ts lines 731-738): the raw
per-lesson shape accepted from the AI planner, covering both the
legacy single-image fields and the images-array shape.  Optional
fields are none when absent. -/
structure OldLessonFormat where
  lessonIndex : Int
  shouldAddImage : Option Bool := none
  imagePrompt : Option String := none
  imageAlt : Option String := none
  placement : Option Int := none
  images : Option (List ImagePlan) := none
deriving DecidableEq

/-- ParsedModulePlan (src/server/gemini.ts lines 740-743). -/
structure ParsedModulePlan where
  moduleIndex : Int
  lessons : List OldLessonFormat
deriving DecidableEq

/-- Plain indexed map, modelling Array.prototype.map's (value, index)
callback. -/
def mapWithIdx {α β : Type} (f : Nat → α → β) : Nat → List α → List β
  | _, [] => []
  | i, a :: as => f i a :: mapWithIdx f (i + 1) as

/-- The per-lesson conversion of generateCourseMediaPlan's validation
(src/server/gemini.ts lines 758-783): a missing lesson entry becomes
an empty image list; a present images array is passed through
unchanged; otherwise the legacy shouldAddImage/imagePrompt shape is
normalized to a one-image list, with falsy imageAlt and placement
(absent, empty, or zero) replaced by defaults. -/
def convertLesson (lesson : LessonOutline) (ep : ParsedModulePlan)
    (li : Nat) : LessonMediaPlan :=
  match ep.lessons.find? (fun l => l.lessonIndex = (li : Int)) with
  | none => { lessonIndex := li, images := [] }
  | some lp =>
    match lp.images with
    | some imgs => { lessonIndex := li, images := imgs }
    | none =>
      if lp.shouldAddImage.getD false ∧ lp.imagePrompt.getD "" ≠ "" then
        let pc := paragraphCount lesson.content
        { lessonIndex := li
          images := [{
            imagePrompt := lp.imagePrompt.getD ""
            imageAlt :=
              if lp.imageAlt.getD "" = "" then
                "Illustration for " ++ lesson.lesson_title
              else lp.imageAlt.getD ""
            placement :=
              match lp.placement with
              | none => (max 1 pc : Nat)
              | some p => if p = 0 then (max 1 pc : Nat) else p }] }
      else { lessonIndex := li, images := [] }

/-- The per-module step of generateCourseMediaPlan's validation
(src/server/gemini.ts lines 749-786): a module with no entry in the
raw plan is given the local fallback plan computed for that single
module; a module with an entry has each of its lessons converted. -/
def validateModule (courseTitle : String) (mediaPlan : List ParsedModulePlan)
    (mi : Nat) (m : ModuleOutline) : ModuleMediaPlan :=
  match mediaPlan.find? (fun p => p.moduleIndex = (mi : Int)) with
  | none =>
    { moduleIndex := mi
      lessons :=
        ((generateFallbackMediaPlan courseTitle [m]).head?.map
          (fun x => x.lessons)).getD [] }
  | some ep =>
    { moduleIndex := mi
      lessons := mapWithIdx (fun li lesson => convertLesson lesson ep li) 0 m.lessons }

/-- The validation map over the original outline's modules
(src/server/gemini.ts lines 749-786). -/
def validatePlan (courseTitle : String) (modules : List ModuleOutline)
    (mediaPlan : List ParsedModulePlan) : List ModuleMediaPlan :=
  mapWithIdx (validateModule courseTitle mediaPlan) 0 modules

/-- The forced image plan the safety net writes onto the first lesson
of the first module (src/server/gemini.ts lines 795-803): prompt
derived deterministically from the lesson's own title and content
preview, placement max(1, paragraphCount). -/
def forcedLesson (courseTitle : String) (m0 : ModuleOutline)
    (l0 : LessonOutline) : LessonMediaPlan :=
  { lessonIndex := 0
    images := [{
      imagePrompt := generateFallbackImagePrompt courseTitle
        m0.module_title l0.lesson_title l0.content
      imageAlt := "Illustration for " ++ l0.lesson_title
      placement := (max 1 (paragraphCount l0.content) : Nat) }] }

/-- The safety net of generateCourseMediaPlan (src/server/gemini.ts
lines 790-806): when the validated plan has zero images in total and
the outline has a first module with a first lesson, overwrite slot 0
of the first module's lesson plans with a single forced image derived
from that lesson.  (The overwritten slot is always in range: the
validated first module has one lesson plan per outline lesson.) -/
def addSafetyNet (courseTitle : String) (modules : List ModuleOutline)
    (plan : List ModuleMediaPlan) : List ModuleMediaPlan :=
  match modules with
  | [] => plan
  | m0 :: _ =>
    match m0.lessons with
    | [] => plan
    | l0 :: _ =>
      if totalImagesOf plan = 0 then
        match plan with
        | [] => []
        | p0 :: rest =>
          { p0 with lessons := p0.lessons.set 0 (forcedLesson courseTitle m0 l0) } ::
            rest
      else plan

/-- generateCourseMediaPlan (src/server/gemini.ts lines 634-811), with
the AI planning call and JSON.parse abstracted into aiResult: none
when the call threw, returned empty text, or produced unparsable
output (the outer catch and the empty-text branch both fall back to
the local plan); some rawPlan when a plan parsed (parsed.modules of
the response, an absent modules field giving the empty list). -/
def generateCourseMediaPlanModel (courseTitle : String)
    (modules : List ModuleOutline)
    (aiResult : Option (List ParsedModulePlan)) : List ModuleMediaPlan :=
  match aiResult with
  | none => generateFallbackMediaPlan courseTitle modules
  | some rawPlan =>
    addSafetyNet courseTitle modules (validatePlan courseTitle modules rawPlan)

/-- Course generation status (src/unnamed/part_000 line 124: enum
pending | generating | complete). -/
inductive GenStatus where
  | pending : GenStatus
  | generating : GenStatus
  | complete : GenStatus
deriving DecidableEq

/-- The generationStatus a course is created with
(src/server/gemini.ts line 1462): generating exactly when lesson-image
generation was requested. -/
def createCourseStatus (generateLessonImages : Bool) : GenStatus :=
  if generateLessonImages then .generating else .complete

/-- Whether the creation route schedules the background image run
(src/server/gemini.ts line 1514: the setImmediate is guarded by the
generateLessonImages flag). -/
def backgroundScheduled (generateLessonImages : Bool) : Bool :=
  generateLessonImages

/-- A persisted media item (src/server/gemini.ts lines 1607-1615); the
randomUUID id is not modelled, the remaining fields are carried as
written. -/
structure MediaItem where
  type : String
  url : String
  alt : String
  caption : String
  placement : Int
  prompt : String
deriving DecidableEq

/-- The lesson bookkeeping rows the route builds before the worker
runs (src/server/gemini.ts lines 1464-1504). -/
structure CreatedLesson where
  moduleIndex : Nat
  lessonIndex : Nat
  lessonId : String
deriving DecidableEq

/-- Observable storage/notification operations of the background
worker, in order of issue.  notifyComplete is the "Course Ready!"
notification carrying the success count in its subtitle
(src/server/gemini.ts lines 1646-1656); notifyManualAdd is the softer
"Course Created ... add images manually" notification of the failure
branch (lines 1678-1687).  Notification dispatch is best-effort in the
source (failures swallowed); the effect records the attempt. -/
inductive Effect where
  | addMedia : String → MediaItem → Effect
  | setStatus : String → GenStatus → Effect
  | notifyComplete : Nat → Effect
  | notifyManualAdd : Effect
deriving DecidableEq

/-- The per-image retry loop (src/server/gemini.ts lines 1571-1605):
maxRetries = 2 total attempts, a null result retried once after a
fixed delay.  The image service is the oracle from (prompt, attempt
number) to an optional url; generateLessonImage catches its own
errors and returns null, so a failed attempt is none. -/
def runImageAttempts (gen : String → Nat → Option String) (prompt : String) :
    Option String :=
  match gen prompt 1 with
  | some url => some url
  | none => gen prompt 2

/-- The effects and success count of walking one lesson's image plans
(src/server/gemini.ts lines 1571-1630): each success appends media
carrying the original prompt and the alt/placement from the plan; each
exhausted retry only increments the failure log. -/
def lessonImagesEffects (gen : String → Nat → Option String)
    (lessonId : String) : List ImagePlan → List Effect × Nat
  | [] => ([], 0)
  | plan :: rest =>
    let tail := lessonImagesEffects gen lessonId rest
    match runImageAttempts gen plan.imagePrompt with
    | some url =>
      (.addMedia lessonId
        { type := "image", url := url, alt := plan.imageAlt, caption := ""
          placement := plan.placement, prompt := plan.imagePrompt } :: tail.1,
        tail.2 + 1)
    | none => (tail.1, tail.2)

/-- The walk over one module plan's lessons (src/server/gemini.ts
lines 1535-1634): a lesson plan with no images is skipped, as is a
plan whose (moduleIndex, lessonIndex) has no created lesson. -/
def lessonsEffects (gen : String → Nat → Option String)
    (created : List CreatedLesson) (moduleIndex : Nat) :
    List LessonMediaPlan → List Effect × Nat
  | [] => ([], 0)
  | lp :: rest =>
    let head : List Effect × Nat :=
      if lp.images.isEmpty then ([], 0)
      else
        match created.find? (fun l =>
            l.moduleIndex = moduleIndex ∧ l.lessonIndex = lp.lessonIndex) with
        | none => ([], 0)
        | some info => lessonImagesEffects gen info.lessonId lp.images
    let tail := lessonsEffects gen created moduleIndex rest
    (head.1 ++ tail.1, head.2 + tail.2)

/-- The walk over the media plan's modules, strictly in order
(src/server/gemini.ts lines 1534-1634). -/
def modulesEffects (gen : String → Nat → Option String)
    (created : List CreatedLesson) : List ModuleMediaPlan → List Effect × Nat
  | [] => ([], 0)
  | mp :: rest =>
    let head := lessonsEffects gen created mp.moduleIndex mp.lessons
    let tail := modulesEffects gen created rest
    (head.1 ++ tail.1, head.2 + tail.2)

/-- The background worker body (src/server/gemini.ts lines 1516-1696):
planResult is ok when generateCourseMediaPlan resolved (it contains
its own outer fallback) and error when the try block threw before or
during the walk; on the happy path the plan is walked, the status is
advanced to complete exactly once, and the "Course Ready!"
notification summarizing the success count is attempted; on the error
path the status is still advanced to complete and the softer manual-
add notification is attempted. -/
def workerEffects (courseId : String) (created : List CreatedLesson)
    (gen : String → Nat → Option String)
    (planResult : Except Unit (List ModuleMediaPlan)) : List Effect :=
  match planResult with
  | .ok plan =>
    let walk := modulesEffects gen created plan
    walk.1 ++ [.setStatus courseId .complete, .notifyComplete walk.2]
  | .error _ => [.setStatus courseId .complete, .notifyManualAdd]

/-! ## Theorems -/

/-- Each scan step pushes exactly the scanned character: the escape
branch of repairStep is unreachable because the quote case fires first. -/
theorem repairStep_fst (st : List Char × Bool × Bool × Option Char) (c : Char) :
    (repairStep st c).1 = c :: st.1 := by
  obtain ⟨res, inString, escapedNext, prev⟩ := st
  show (if escapedNext then _ else if c = '\\' then _
        else if c = '"' then _
        else if inString ∧ c = '"' ∧ prev ≠ some '\\' then _
        else _ : List Char × Bool × Bool × Option Char).1 = _
  split_ifs with h1 h2 h3 h4
  · rfl
  · rfl
  · rfl
  · exact absurd h4.2.1 h3
  · rfl

theorem repairJSON_foldl (cs : List Char)
    (st : List Char × Bool × Bool × Option Char) :
    (cs.foldl repairStep st).1 = cs.reverse ++ st.1 := by
  induction cs generalizing st with
  | nil => simp
  | cons c cs ih =>
    simp only [List.foldl_cons, List.reverse_cons, List.append_assoc,
      List.singleton_append, ih, repairStep_fst]

/-- repairJSON leaves every string unchanged (helper shared by the
statements about the repair pass). -/
theorem repairJSON_id (s : String) : repairJSON s = s := by
  unfold repairJSON
  rw [repairJSON_foldl]
  simp

/-- C2: for every input string, repairJSON is the identity: the branch
that would escape an unescaped in-string quote is unreachable, because
the earlier double-quote case always consumes the character first, so
the repair function never modifies its input. -/
theorem repairJSON_eq_id (s : String) : repairJSON s = s :=
  repairJSON_id s

/-- C10: repairJSON is idempotent (on every text, in particular on
text free of the targeted defect), and parsing (for any parse function
whatsoever) is unaffected by the repair pass: text that parsed as JSON
before repair still parses to the same value afterwards. -/
theorem repairJSON_idempotent {α : Type} (s : String) (parse : String → α) :
    repairJSON (repairJSON s) = repairJSON s ∧
      parse (repairJSON s) = parse s := by
  rw [repairJSON_id, repairJSON_id]
  exact ⟨rfl, rfl⟩

/-- C1 counterexample: the outline with a title and an empty modules
array is accepted by generateCourse's validation (and by the route's
generatedCourseSchema), and generateCourse returns it successfully,
although its modules list is empty; likewise an outline whose single
lesson has empty title and content is accepted.  This refutes the
claim that validation guarantees a non-empty modules list and
non-empty lesson titles/contents, with violations fatal. -/
theorem c1_counterexample :
    generateCourseAccepts
        (.obj [("course_title", .str "T"), ("modules", .arr [])]) = true ∧
      generatedCourseSchemaAccepts
        (.obj [("course_title", .str "T"), ("modules", .arr [])]) = true ∧
      generateCoursePipeline
          (fun _ => .ok (.obj [("course_title", .str "T"), ("modules", .arr [])]))
          (some "x") =
        .ok (.obj [("course_title", .str "T"), ("modules", .arr [])]) ∧
      generateCourseAccepts
        (.obj [("course_title", .str "T"),
          ("modules", .arr [.obj [("module_title", .str "M"),
            ("lessons", .arr [.obj [("lesson_title", .str ""),
              ("content", .str "")]])]])]) = true ∧
      generatedCourseSchemaAccepts
        (.obj [("course_title", .str "T"),
          ("modules", .arr [.obj [("module_title", .str "M"),
            ("lessons", .arr [.obj [("lesson_title", .str ""),
              ("content", .str "")]])]])]) = true := by
  refine ⟨by decide, by decide, rfl, by decide, by decide⟩

/-- Every parse result validateParsedCourse lets through is its input,
has a truthy course_title and an array modules field, and every module
element is an object with a non-null lessons field. -/
theorem validateParsedCourse_ok (w v : Json)
    (h : validateParsedCourse w = .ok v) :
    v = w ∧ generateCourseAccepts v = true ∧
      ∃ ms, jsonField v "modules" = some (.arr ms) ∧
        ∀ m ∈ ms, lessonsLengthOk m = true := by
  unfold validateParsedCourse at h
  split at h
  · exact absurd h (by simp)
  · split at h
    · rename_i hacc
      split at h
      · rename_i ms hms
        split at h
        · rename_i hall
          simp only [Except.ok.injEq] at h
          subst h
          exact ⟨rfl, hacc, ms, hms, List.all_eq_true.mp hall⟩
        · exact absurd h (by simp)
      · exact absurd h (by simp)
    · exact absurd h (by simp)

/-- C1 (amended): any outline returned successfully by generateCourse
has a truthy (present, non-empty) course_title and an array modules
field, and each module element carries a non-null lessons field (the
success log would otherwise throw); the validation does not require
the modules list to be non-empty, nor lessons lists to be non-empty,
nor lesson titles and contents to be non-empty. -/
theorem c1_amended (parse : String → Except String Json)
    (text : Option String) (v : Json)
    (h : generateCoursePipeline parse text = .ok v) :
    generateCourseAccepts v = true ∧
      ∃ ms, jsonField v "modules" = some (.arr ms) ∧
        ∀ m ∈ ms, lessonsLengthOk m = true := by
  unfold generateCoursePipeline at h
  split at h
  · rename_i w hw
    simp only [Except.ok.injEq] at h
    subst h
    unfold generateCourseInner at hw
    split at hw
    · exact absurd hw (by simp)
    · split at hw
      · exact absurd hw (by simp)
      · dsimp only at hw
        split at hw
        · exact (validateParsedCourse_ok _ _ hw).2
        · split at hw
          · exact (validateParsedCourse_ok _ _ hw).2
          · exact absurd hw (by simp)
  · exact absurd h (by simp)

/-- Witness for c1_amended at a concrete accepted outline. -/
theorem c1_amended_witness :
    generateCourseAccepts
        (.obj [("course_title", .str "T"), ("modules", .arr [])]) = true ∧
      ∃ ms, jsonField (Json.obj [("course_title", .str "T"), ("modules", .arr [])])
          "modules" = some (.arr ms) ∧ ∀ m ∈ ms, lessonsLengthOk m = true :=
  c1_amended
    (fun _ => .ok (.obj [("course_title", .str "T"), ("modules", .arr [])]))
    (some "x")
    (.obj [("course_title", .str "T"), ("modules", .arr [])]) rfl

/-- C4 counterexample: regenerateModule and regenerateLesson do not
apply generateOutline's pipeline.  On the same parse oracle and text:
a parse failure surfaces as the raw parse error from the regenerate
functions but as the uniform wrapped error from generateCourse (no
repair/re-parse is even attempted in the regenerate functions); and a
response parsing to an object with no fields at all is returned
successfully by regenerateLesson while generateCourse rejects it as an
invalid structure. -/
theorem c4_counterexample :
    regenerateModulePipeline (fun _ => .error "boom") (some "x") =
        .error (.parseError "boom") ∧
      regenerateLessonPipeline (fun _ => .error "boom") (some "x") =
        .error (.parseError "boom") ∧
      generateCoursePipeline (fun _ => .error "boom") (some "x") =
        .error .wrapped ∧
      regenerateLessonPipeline (fun _ => .ok (.obj [])) (some "x") =
        .ok (.obj []) ∧
      generateCoursePipeline (fun _ => .ok (.obj [])) (some "x") =
        .error .wrapped :=
  ⟨rfl, rfl, rfl, rfl, rfl⟩

/-- C4 (amended): the regenerate variants share generateOutline's
model cascade and fence stripping and its empty-text check, but they
perform a single JSON.parse with no repair pass and no re-parse, they
apply no structural validation of the narrower shapes (any non-null
parsed value is returned by regenerateLesson), and failures are
rethrown raw where generateOutline wraps every failure in its uniform
error. -/
theorem c4_amended (parse : String → Except String Json) (t : String)
    (ht : ¬ t = "") :
    (∀ e, parse (stripFences t) = .error e →
       regenerateModulePipeline parse (some t) = .error (.parseError e) ∧
       regenerateLessonPipeline parse (some t) = .error (.parseError e) ∧
       generateCoursePipeline parse (some t) = .error .wrapped) ∧
    (∀ v, parse (stripFences t) = .ok v → v ≠ .null →
       regenerateLessonPipeline parse (some t) = .ok v) ∧
    regenerateModulePipeline parse none = .error .emptyResponse ∧
    regenerateLessonPipeline parse none = .error .emptyResponse ∧
    generateCoursePipeline parse none = .error .wrapped := by
  refine ⟨?_, ?_, rfl, rfl, rfl⟩
  · intro e he
    refine ⟨?_, ?_, ?_⟩
    · simp [regenerateModulePipeline, ht, he]
    · simp [regenerateLessonPipeline, ht, he]
    · simp [generateCoursePipeline, generateCourseInner, ht, he, repairJSON_id]
  · intro v hv hnull
    cases v with
    | null => exact absurd rfl hnull
    | boolean b => simp [regenerateLessonPipeline, ht, hv]
    | num n => simp [regenerateLessonPipeline, ht, hv]
    | str s => simp [regenerateLessonPipeline, ht, hv]
    | arr l => simp [regenerateLessonPipeline, ht, hv]
    | obj l => simp [regenerateLessonPipeline, ht, hv]

/-- Witness for c4_amended at concrete oracles and text. -/
theorem c4_amended_witness :
    (regenerateModulePipeline (fun _ => .error "raw") (some "y") =
        .error (.parseError "raw") ∧
      generateCoursePipeline (fun _ => .error "raw") (some "y") =
        .error .wrapped) ∧
      regenerateLessonPipeline (fun _ => .ok (.str "s")) (some "y") =
        .ok (.str "s") :=
  ⟨⟨((c4_amended (fun _ => .error "raw") "y" (by decide)).1 "raw" rfl).1,
    ((c4_amended (fun _ => .error "raw") "y" (by decide)).1 "raw" rfl).2.2⟩,
    (c4_amended (fun _ => .ok (.str "s")) "y" (by decide)).2.1 (.str "s") rfl
      (fun h => nomatch h)⟩

/-- Full characterization of the cascade: the attempt trace is a
prefix of the model sequence with the per-model grounding flag; an
error outcome means every model was attempted and the error is the
last model's (or the default on an empty sequence); a success outcome
reports the answering model with its grounding flag. -/
theorem runCascade_spec {R : Type} (call : String → Bool → Except String R)
    (ug : Bool) :
    ∀ (models : List String) (d : String),
      (∃ k, (runCascade call ug models d).1 =
        (models.take k).map (fun m => (m, attemptFlag ug m))) ∧
      (∀ e, (runCascade call ug models d).2 = .error e →
        (runCascade call ug models d).1 =
          models.map (fun m => (m, attemptFlag ug m)) ∧
        ((models = [] ∧ e = d) ∨
          ∃ m, models.getLast? = some m ∧
            call m (attemptFlag ug m) = .error e)) ∧
      (∀ r m fl, (runCascade call ug models d).2 = .ok (r, m, fl) →
        fl = attemptFlag ug m ∧ call m fl = .ok r) := by
  intro models
  induction models with
  | nil =>
    intro d
    refine ⟨⟨0, rfl⟩, ?_, ?_⟩
    · intro e he
      simp only [runCascade, Except.error.injEq] at he
      subst he
      exact ⟨rfl, .inl ⟨rfl, rfl⟩⟩
    · intro r m fl h
      simp [runCascade] at h
  | cons mh rest ih =>
    intro d
    cases hc : call mh (attemptFlag ug mh) with
    | ok r =>
      refine ⟨⟨1, by simp [runCascade, hc]⟩, ?_, ?_⟩
      · intro e he
        simp [runCascade, hc] at he
      · intro r' m' fl' h
        simp only [runCascade, hc] at h
        simp only [Except.ok.injEq, Prod.mk.injEq] at h
        obtain ⟨hr, hm, hfl⟩ := h
        subst hr; subst hm; subst hfl
        exact ⟨rfl, hc⟩
    | error e' =>
      obtain ⟨⟨k, hk⟩, herr, hok⟩ := ih e'
      refine ⟨⟨k + 1, ?_⟩, ?_, ?_⟩
      · simp only [runCascade, hc, List.take_succ_cons, List.map_cons]
        rw [hk]
      · intro e he
        simp only [runCascade, hc] at he
        obtain ⟨htr, hdis⟩ := herr e he
        constructor
        · simp only [runCascade, hc, List.map_cons]
          rw [htr]
        · rcases hdis with ⟨hnil, hed⟩ | ⟨m, hlast, hcall⟩
          · subst hnil; subst hed
            exact .inr ⟨mh, rfl, hc⟩
          · refine .inr ⟨m, ?_, hcall⟩
            cases rest with
            | nil => simp at hlast
            | cons b bs => simpa using hlast
      · intro r' m' fl' h
        simp only [runCascade, hc] at h
        exact hok r' m' fl' h

/-- C9: generateWithFallback tries the grounded tier then the fast
tier when grounding is requested and the reverse otherwise; the
attempt trace is a prefix of that duplicate-free sequence (exactly one
call per model, with the grounding augmentation exactly on grounded-
tier attempts when requested); a thrown error occurs only once every
model in the sequence has been attempted, and it is the error of the
last model attempted; a success reports the answering model and its
grounding flag, which satisfied the call. -/
theorem c9_cascade {R : Type} (call : String → Bool → Except String R)
    (ug : Bool) :
    (modelSequence true = GROUNDING_MODELS ++ FALLBACK_MODELS ∧
      modelSequence false = FALLBACK_MODELS ++ GROUNDING_MODELS ∧
      (modelSequence ug).Nodup) ∧
    (∃ k, (generateWithFallback call ug).1 =
      ((modelSequence ug).take k).map (fun m => (m, attemptFlag ug m))) ∧
    (∀ e, (generateWithFallback call ug).2 = .error e →
      (generateWithFallback call ug).1 =
        (modelSequence ug).map (fun m => (m, attemptFlag ug m)) ∧
      ∃ m, (modelSequence ug).getLast? = some m ∧
        call m (attemptFlag ug m) = .error e) ∧
    (∀ r m fl, (generateWithFallback call ug).2 = .ok (r, m, fl) →
      fl = attemptFlag ug m ∧ call m fl = .ok r) := by
  obtain ⟨hpre, herr, hok⟩ :=
    runCascade_spec call ug (modelSequence ug) "All models failed to generate content"
  refine ⟨⟨rfl, rfl, by cases ug <;> decide⟩, hpre, ?_, hok⟩
  intro e he
  obtain ⟨htr, hdis⟩ := herr e he
  refine ⟨htr, ?_⟩
  rcases hdis with ⟨hnil, _⟩ | hlast
  · exact absurd hnil (by cases ug <;> decide)
  · exact hlast

/-- Witness for c9_cascade: an oracle failing every model makes the
cascade attempt the whole sequence and surface the last model's
error. -/
theorem c9_cascade_witness :
    (generateWithFallback
        (fun m (_ : Bool) => (.error ("E" ++ m) : Except String Unit)) true).1 =
      (modelSequence true).map (fun m => (m, attemptFlag true m)) ∧
    ∃ m, (modelSequence true).getLast? = some m ∧
      (fun m (_ : Bool) => (.error ("E" ++ m) : Except String Unit)) m
        (attemptFlag true m) = .error "Egemini-2.5-flash-lite" :=
  (c9_cascade (fun m (_ : Bool) => (.error ("E" ++ m) : Except String Unit))
    true).2.2.1 "Egemini-2.5-flash-lite" rfl

/-- Every effect of walking one lesson's images is a media append. -/
theorem lessonImagesEffects_mem (gen : String → Nat → Option String)
    (lid : String) (plans : List ImagePlan) :
    ∀ e ∈ (lessonImagesEffects gen lid plans).1, ∃ l m, e = .addMedia l m := by
  induction plans with
  | nil => intro e he; simp [lessonImagesEffects] at he
  | cons p rest ih =>
    intro e he
    cases hr : runImageAttempts gen p.imagePrompt with
    | some url =>
      simp only [lessonImagesEffects, hr, List.mem_cons] at he
      rcases he with he | he
      · exact ⟨_, _, he⟩
      · exact ih e he
    | none =>
      simp only [lessonImagesEffects, hr] at he
      exact ih e he

/-- Every effect of walking one module plan's lessons is a media append. -/
theorem lessonsEffects_mem (gen : String → Nat → Option String)
    (created : List CreatedLesson) (mi : Nat) (lps : List LessonMediaPlan) :
    ∀ e ∈ (lessonsEffects gen created mi lps).1, ∃ l m, e = .addMedia l m := by
  induction lps with
  | nil => intro e he; simp [lessonsEffects] at he
  | cons lp rest ih =>
    intro e he
    unfold lessonsEffects at he
    rw [List.mem_append] at he
    rcases he with he | he
    · split at he
      · simp at he
      · split at he
        · simp at he
        · exact lessonImagesEffects_mem _ _ _ e he
    · exact ih e he

/-- Every effect of walking the whole media plan is a media append. -/
theorem modulesEffects_mem (gen : String → Nat → Option String)
    (created : List CreatedLesson) (plan : List ModuleMediaPlan) :
    ∀ e ∈ (modulesEffects gen created plan).1, ∃ l m, e = .addMedia l m := by
  induction plan with
  | nil => intro e he; simp [modulesEffects] at he
  | cons mp rest ih =>
    intro e he
    unfold modulesEffects at he
    rw [List.mem_append] at he
    rcases he with he | he
    · exact lessonsEffects_mem _ _ _ _ e he
    · exact ih e he

/-- C8: a course is created with status generating exactly when
lesson-image generation was requested (complete otherwise), background
work is scheduled exactly under that flag, and every status update the
background worker performs — on the happy path and on the failure
path alike — sets the status to complete; no pipeline operation sets
a status back to generating. -/
theorem c8_status_machine (f : Bool) (cid : String)
    (created : List CreatedLesson) (gen : String → Nat → Option String)
    (pr : Except Unit (List ModuleMediaPlan)) :
    (createCourseStatus f = .generating ↔ f = true) ∧
      backgroundScheduled f = f ∧
      (∀ c s, Effect.setStatus c s ∈ workerEffects cid created gen pr →
        s = .complete) := by
  refine ⟨by cases f <;> simp [createCourseStatus], rfl, ?_⟩
  intro c s hmem
  cases pr with
  | error u =>
    simp only [workerEffects, List.mem_cons, List.mem_singleton] at hmem
    rcases hmem with h | h | h
    · cases h; rfl
    · cases h
    · simp at h
  | ok plan =>
    simp only [workerEffects] at hmem
    rw [List.mem_append] at hmem
    rcases hmem with h | h
    · obtain ⟨l, m, hm⟩ := modulesEffects_mem gen created plan _ h
      cases hm
    · simp only [List.mem_cons, List.mem_singleton] at h
      rcases h with h | h | h
      · cases h; rfl
      · cases h
      · simp at h

/-- Witness for c8_status_machine at concrete inputs. -/
theorem c8_status_machine_witness :
    createCourseStatus true = .generating ∧ GenStatus.complete = .complete :=
  ⟨(c8_status_machine true "c" [] (fun _ _ => none) (.error ())).1.mpr rfl,
    (c8_status_machine true "c" [] (fun _ _ => none) (.error ())).2.2 "c"
      .complete (by simp [workerEffects])⟩

/-- A fully failing image oracle yields no effects and zero successes
for one lesson's image plans. -/
theorem lessonImagesEffects_allFail (gen : String → Nat → Option String)
    (h : ∀ p a, gen p a = none) (lid : String) (plans : List ImagePlan) :
    lessonImagesEffects gen lid plans = ([], 0) := by
  induction plans with
  | nil => rfl
  | cons p rest ih =>
    unfold lessonImagesEffects
    rw [ih]
    simp [runImageAttempts, h]

/-- A fully failing image oracle yields no effects and zero successes
for one module plan. -/
theorem lessonsEffects_allFail (gen : String → Nat → Option String)
    (h : ∀ p a, gen p a = none) (created : List CreatedLesson) (mi : Nat)
    (lps : List LessonMediaPlan) :
    lessonsEffects gen created mi lps = ([], 0) := by
  induction lps with
  | nil => rfl
  | cons lp rest ih =>
    unfold lessonsEffects
    rw [ih]
    split
    · rfl
    · split
      · rfl
      · rw [lessonImagesEffects_allFail gen h]
        rfl

/-- A fully failing image oracle yields no effects and zero successes
for the whole plan walk. -/
theorem modulesEffects_allFail (gen : String → Nat → Option String)
    (h : ∀ p a, gen p a = none) (created : List CreatedLesson)
    (plan : List ModuleMediaPlan) :
    modulesEffects gen created plan = ([], 0) := by
  induction plan with
  | nil => rfl
  | cons mp rest ih =>
    unfold modulesEffects
    rw [ih, lessonsEffects_allFail gen h]
    rfl

/-- C5 counterexample: when the image service fails every attempt for
every planned image (oracle constantly none) on a concrete one-image
plan, the worker's happy path runs to the end: the status is advanced
to complete and the single notification attempted is the standard
"Course Ready!" completion notification reporting zero successes —
not the softer manual-add notification the claim requires (zero
manual-add notifications are sent). -/
theorem c5_counterexample :
    workerEffects "c" [⟨0, 0, "l"⟩] (fun _ _ => none)
        (.ok [⟨0, [⟨0, [⟨"p", "a", 1⟩]⟩]⟩]) =
      [.setStatus "c" .complete, .notifyComplete 0] ∧
    (workerEffects "c" [⟨0, 0, "l"⟩] (fun _ _ => none)
        (.ok [⟨0, [⟨0, [⟨"p", "a", 1⟩]⟩]⟩])).countP
      (fun e => match e with | .notifyManualAdd => true | _ => false) = 0 :=
  ⟨rfl, rfl⟩

/-- C5 (amended): when the image service fails every attempt for every
planned image, the worker still advances the course to complete and
appends no media (lesson media lists stay empty), and exactly one
notification is attempted: the standard completion notification
summarizing zero successes.  The manual-add notification is attempted
only on the worker's failure path (when plan production threw). -/
theorem c5_amended (cid : String) (created : List CreatedLesson)
    (gen : String → Nat → Option String) (plan : List ModuleMediaPlan)
    (h : ∀ p a, gen p a = none) :
    workerEffects cid created gen (.ok plan) =
      [.setStatus cid .complete, .notifyComplete 0] := by
  simp [workerEffects, modulesEffects_allFail gen h]

/-- Witness for c5_amended at concrete inputs. -/
theorem c5_amended_witness :
    workerEffects "c" [⟨0, 0, "l"⟩] (fun _ _ => none)
        (.ok [⟨0, [⟨0, [⟨"p", "a", 1⟩]⟩, ⟨1, []⟩]⟩]) =
      [.setStatus "c" .complete, .notifyComplete 0] :=
  c5_amended "c" [⟨0, 0, "l"⟩] (fun _ _ => none)
    [⟨0, [⟨0, [⟨"p", "a", 1⟩]⟩, ⟨1, []⟩]⟩] (fun _ _ => rfl)

/-- Indexing into an indexed map. -/
theorem mapWithIdx_getElem? {α β : Type} (f : Nat → α → β) :
    ∀ (l : List α) (i n : Nat),
      (mapWithIdx f i l)[n]? = (l[n]?).map (f (i + n)) := by
  intro l
  induction l with
  | nil => intro i n; simp [mapWithIdx]
  | cons a as ih =>
    intro i n
    cases n with
    | zero => simp [mapWithIdx]
    | succ k =>
      simp only [mapWithIdx, List.getElem?_cons_succ, ih (i + 1) k]
      have hik : i + 1 + k = i + (k + 1) := by omega
      rw [hik]

/-- C3 counterexample: an outline of two one-lesson modules with a raw
AI plan that contains an entry only for module 1 (requesting one
image there).  Module 0's lesson lacks any entry in the raw plan, yet
validation assigns it one image (the per-module fallback), for a total
of two images — not the empty image list the claim requires, and not
explained by the single whole-course safety-net image. -/
theorem c3_counterexample :
    (validatePlan "T" [⟨"M0", [⟨"L0", "c0"⟩]⟩, ⟨"M1", [⟨"L1", "c1"⟩]⟩]
        [⟨1, [⟨0, none, none, none, none, some [⟨"P", "A", 1⟩]⟩]⟩]).map
      (fun mp => mp.lessons.map (fun lp => lp.images.length)) = [[1], [1]] ∧
    totalImagesOf
      (generateCourseMediaPlanModel "T"
        [⟨"M0", [⟨"L0", "c0"⟩]⟩, ⟨"M1", [⟨"L1", "c1"⟩]⟩]
        (some [⟨1, [⟨0, none, none, none, none, some [⟨"P", "A", 1⟩]⟩]⟩])) = 2 := by
  exact ⟨by decide, by decide⟩

/-- C3 (amended): for a module that has an entry in the raw plan,
validation assigns each of its lessons an empty image list whenever
the entry lacks that lesson or lacks a usable prompt for it; but when
a module lacks an entry entirely, validation substitutes the local
fallback plan computed for that single module, which may add an image
to the module's first lesson. -/
theorem c3_amended (ct : String) (modules : List ModuleOutline)
    (mediaPlan : List ParsedModulePlan) (mi : Nat) (m : ModuleOutline)
    (hm : modules[mi]? = some m) :
    (mediaPlan.find? (fun p => p.moduleIndex = (mi : Int)) = none →
       (validatePlan ct modules mediaPlan)[mi]? = some
         ⟨mi, ((generateFallbackMediaPlan ct [m]).head?.map
           (fun x => x.lessons)).getD []⟩) ∧
    (∀ ep, mediaPlan.find? (fun p => p.moduleIndex = (mi : Int)) = some ep →
       ∀ (li : Nat) (lesson : LessonOutline), m.lessons[li]? = some lesson →
         (ep.lessons.find? (fun l => l.lessonIndex = (li : Int)) = none ∨
           ∃ lp, ep.lessons.find? (fun l => l.lessonIndex = (li : Int)) = some lp ∧
             lp.images = none ∧
             ¬(lp.shouldAddImage.getD false = true ∧ lp.imagePrompt.getD "" ≠ "")) →
         ∃ mp, (validatePlan ct modules mediaPlan)[mi]? = some mp ∧
           mp.lessons[li]? = some ⟨li, []⟩) := by
  have hv : (validatePlan ct modules mediaPlan)[mi]? =
      some (validateModule ct mediaPlan mi m) := by
    unfold validatePlan
    rw [mapWithIdx_getElem?, hm, Nat.zero_add]
    rfl
  constructor
  · intro hfind
    rw [hv]
    unfold validateModule
    rw [hfind]
  · intro ep hep li lesson hl hcases
    refine ⟨validateModule ct mediaPlan mi m, hv, ?_⟩
    unfold validateModule
    rw [hep]
    show (mapWithIdx (fun li lesson => convertLesson lesson ep li) 0 m.lessons)[li]? = _
    rw [mapWithIdx_getElem?, hl, Nat.zero_add]
    show some (convertLesson lesson ep li) = _
    unfold convertLesson
    rcases hcases with hnone | ⟨lp, hlp, himg, hguard⟩
    · rw [hnone]
    · rw [hlp]
      dsimp only
      rw [himg]
      dsimp only
      rw [if_neg hguard]

/-- Witness for c3_amended: a module entry with no lesson entries
normalizes the module's single lesson to an empty image list. -/
theorem c3_amended_witness :
    ∃ mp, (validatePlan "T" [⟨"M", [⟨"L", "c"⟩]⟩] [⟨0, []⟩])[0]? = some mp ∧
      mp.lessons[0]? = some ⟨0, []⟩ :=
  (c3_amended "T" [⟨"M", [⟨"L", "c"⟩]⟩] [⟨0, []⟩] 0 ⟨"M", [⟨"L", "c"⟩]⟩ rfl).2
    ⟨0, []⟩ (by decide) 0 ⟨"L", "c"⟩ rfl (.inl rfl)

/-- Each lesson plan the local fallback produces carries at most one
image. -/
theorem fallbackLessonsGo_cap (ct mt : String) (target : Nat) :
    ∀ (ls : List LessonOutline) (li added : Nat) (lp : LessonMediaPlan),
      lp ∈ (fallbackLessonsGo ct mt target li added ls).1 →
      lp.images.length ≤ 1 := by
  intro ls
  induction ls with
  | nil => intro li added lp h; simp [fallbackLessonsGo] at h
  | cons l lt ih =>
    intro li added lp h
    unfold fallbackLessonsGo at h
    split at h
    · dsimp only at h
      rw [List.mem_cons] at h
      rcases h with h | h
      · subst h; simp
      · exact ih (li + 1) (added + 1) lp h
    · dsimp only at h
      rw [List.mem_cons] at h
      rcases h with h | h
      · subst h; simp
      · exact ih (li + 1) added lp h

/-- Each lesson plan anywhere in the local fallback plan carries at
most one image. -/
theorem fallbackModulesGo_cap (ct : String) (target : Nat) :
    ∀ (ms : List ModuleOutline) (mi added : Nat) (mp : ModuleMediaPlan),
      mp ∈ fallbackModulesGo ct target mi added ms →
      ∀ lp ∈ mp.lessons, lp.images.length ≤ 1 := by
  intro ms
  induction ms with
  | nil => intro mi added mp h; simp [fallbackModulesGo] at h
  | cons m rest ih =>
    intro mi added mp h lp hlp
    unfold fallbackModulesGo at h
    dsimp only at h
    rw [List.mem_cons] at h
    rcases h with h | h
    · subst h
      exact fallbackLessonsGo_cap ct m.module_title target m.lessons 0 added lp hlp
    · exact ih (mi + 1) _ mp h lp hlp

/-- C6 counterexample: a raw AI plan carrying two images on the single
lesson of a one-module course passes validation (and the safety net)
unchanged: the validated plan still has two images on that lesson, not
at most one. -/
theorem c6_counterexample :
    (generateCourseMediaPlanModel "T" [⟨"M", [⟨"L", "c"⟩]⟩]
        (some [⟨0, [⟨0, none, none, none, none,
          some [⟨"P1", "A1", 1⟩, ⟨"P2", "A2", 2⟩]⟩]⟩])).map
      (fun mp => mp.lessons.map (fun lp => lp.images.length)) = [[2]] := by
  decide

/-- C6 (amended): validation imposes no per-lesson cap: an AI-supplied
images array is passed through unchanged, however many entries it has;
the at-most-one-image-per-lesson rule is only a prompt instruction.
The local fallback path, by contrast, structurally produces at most
one image per lesson. -/
theorem c6_amended :
    (∀ (lesson : LessonOutline) (ep : ParsedModulePlan) (li : Nat)
       (lp : OldLessonFormat) (imgs : List ImagePlan),
       ep.lessons.find? (fun l => l.lessonIndex = (li : Int)) = some lp →
       lp.images = some imgs →
       convertLesson lesson ep li = ⟨li, imgs⟩) ∧
    (∀ (ct : String) (modules : List ModuleOutline) (mp : ModuleMediaPlan)
       (lp : LessonMediaPlan),
       mp ∈ generateFallbackMediaPlan ct modules → lp ∈ mp.lessons →
       lp.images.length ≤ 1) := by
  constructor
  · intro lesson ep li lp imgs hlp himgs
    unfold convertLesson
    rw [hlp]
    dsimp only
    rw [himgs]
  · intro ct modules mp lp hmp hlp
    exact fallbackModulesGo_cap ct (fallbackTarget modules) modules 0 0 mp hmp lp hlp

set_option maxRecDepth 40000 in
/-- Witness for c6_amended: a two-image raw entry passes through, and
a concrete fallback lesson plan respects the cap. -/
theorem c6_amended_witness :
    convertLesson ⟨"L", "c"⟩
        ⟨0, [⟨0, none, none, none, none, some [⟨"P1", "A1", 1⟩, ⟨"P2", "A2", 2⟩]⟩]⟩ 0 =
      ⟨0, [⟨"P1", "A1", 1⟩, ⟨"P2", "A2", 2⟩]⟩ ∧
    (⟨0, [⟨generateFallbackImagePrompt "T" "M" "L" "c", "Illustration for L", 1⟩]⟩ :
        LessonMediaPlan).images.length ≤ 1 :=
  ⟨c6_amended.1 ⟨"L", "c"⟩
      ⟨0, [⟨0, none, none, none, none, some [⟨"P1", "A1", 1⟩, ⟨"P2", "A2", 2⟩]⟩]⟩ 0
      ⟨0, none, none, none, none, some [⟨"P1", "A1", 1⟩, ⟨"P2", "A2", 2⟩]⟩
      [⟨"P1", "A1", 1⟩, ⟨"P2", "A2", 2⟩] (by decide) rfl,
    c6_amended.2 "T" [⟨"M", [⟨"L", "c"⟩]⟩]
      ⟨0, [⟨0, [⟨generateFallbackImagePrompt "T" "M" "L" "c", "Illustration for L", 1⟩]⟩]⟩
      ⟨0, [⟨generateFallbackImagePrompt "T" "M" "L" "c", "Illustration for L", 1⟩]⟩
      (by decide) (by decide)⟩

theorem totalImagesOf_cons (mp : ModuleMediaPlan) (rest : List ModuleMediaPlan) :
    totalImagesOf (mp :: rest) =
      (mp.lessons.map (fun lp => lp.images.length)).sum + totalImagesOf rest := by
  simp [totalImagesOf]

theorem fallbackLessonsGo_length (ct mt : String) (target : Nat) :
    ∀ (ls : List LessonOutline) (li added : Nat),
      (fallbackLessonsGo ct mt target li added ls).1.length = ls.length := by
  intro ls
  induction ls with
  | nil => intro li added; rfl
  | cons l lt ih =>
    intro li added
    unfold fallbackLessonsGo
    split
    · dsimp only
      rw [List.length_cons, List.length_cons, ih]
    · dsimp only
      rw [List.length_cons, List.length_cons, ih]

theorem mapWithIdx_length {α β : Type} (f : Nat → α → β) :
    ∀ (l : List α) (i : Nat), (mapWithIdx f i l).length = l.length := by
  intro l
  induction l with
  | nil => intro i; rfl
  | cons a as ih =>
    intro i
    rw [mapWithIdx, List.length_cons, List.length_cons, ih]

/-- Validation preserves the per-module lesson-plan count: one plan
entry per outline lesson, on both the entry-found and the module-
missing (per-module fallback) branches. -/
theorem validateModule_lessons_length (ct : String)
    (mp : List ParsedModulePlan) (mi : Nat) (m : ModuleOutline) :
    (validateModule ct mp mi m).lessons.length = m.lessons.length := by
  unfold validateModule
  split
  · show (((generateFallbackMediaPlan ct [m]).head?.map
      (fun x => x.lessons)).getD []).length = _
    have hplan : generateFallbackMediaPlan ct [m] =
        [{ moduleIndex := 0,
           lessons := (fallbackLessonsGo ct m.module_title
             (fallbackTarget [m]) 0 0 m.lessons).1 }] := rfl
    rw [hplan]
    show (fallbackLessonsGo ct m.module_title (fallbackTarget [m]) 0 0 m.lessons).1.length = _
    exact fallbackLessonsGo_length ct m.module_title (fallbackTarget [m]) m.lessons 0 0
  · exact mapWithIdx_length _ m.lessons 0

theorem exists_nonempty_module (modules : List ModuleOutline)
    (h : 1 ≤ totalLessonCount modules) : ∃ m ∈ modules, m.lessons ≠ [] := by
  induction modules with
  | nil => simp [totalLessonCount] at h
  | cons m ms ih =>
    cases hml : m.lessons with
    | nil =>
      have h' : 1 ≤ totalLessonCount ms := by
        simp only [totalLessonCount, List.map_cons, List.sum_cons, hml,
          List.length_nil, Nat.zero_add] at h
        exact h
      obtain ⟨m', hm', hne⟩ := ih h'
      exact ⟨m', List.mem_cons_of_mem _ hm', hne⟩
    | cons l lt =>
      exact ⟨m, List.mem_cons_self _ _, by rw [hml]; simp⟩

/-- While the running count is below the cap, a module walk over any
sequence still containing a non-empty module places at least one
image. -/
theorem fallbackModulesGo_total (ct : String) (target : Nat) :
    ∀ (ms : List ModuleOutline) (mi added : Nat), added < target →
      (∃ m ∈ ms, m.lessons ≠ []) →
      1 ≤ totalImagesOf (fallbackModulesGo ct target mi added ms) := by
  intro ms
  induction ms with
  | nil =>
    intro mi added _ hex
    simp at hex
  | cons m rest ih =>
    intro mi added hlt hex
    cases hml : m.lessons with
    | nil =>
      have hex' : ∃ m' ∈ rest, m'.lessons ≠ [] := by
        rcases hex with ⟨m', hm', hne⟩
        rcases List.mem_cons.mp hm' with h | h
        · subst h; exact absurd hml hne
        · exact ⟨m', h, hne⟩
      unfold fallbackModulesGo
      dsimp only
      rw [hml]
      rw [totalImagesOf_cons]
      show 1 ≤ (([] : List LessonMediaPlan).map (fun lp => lp.images.length)).sum +
        totalImagesOf (fallbackModulesGo ct target (mi + 1) added rest)
      simpa using ih (mi + 1) added hlt hex'
    | cons l lt =>
      unfold fallbackModulesGo
      dsimp only
      rw [hml]
      rw [totalImagesOf_cons]
      have hgo : ∃ tail,
          (fallbackLessonsGo ct m.module_title target 0 added (l :: lt)).1 =
            { lessonIndex := 0,
              images := [{
                imagePrompt := generateFallbackImagePrompt ct m.module_title
                  l.lesson_title l.content
                imageAlt := "Illustration for " ++ l.lesson_title
                placement := ((max 1 (paragraphCount l.content) : Nat) : Int) }] } ::
              tail := by
        unfold fallbackLessonsGo
        rw [if_pos ⟨rfl, hlt⟩]
        exact ⟨_, rfl⟩
      obtain ⟨tail, htail⟩ := hgo
      rw [htail]
      simp only [List.map_cons, List.sum_cons, List.length_singleton]
      omega

/-- C7 counterexample: an outline whose first module has no lessons
(one lesson in total, in the second module) together with a raw AI
plan containing empty entries for both modules: validation yields zero
images and the safety net does not fire (it requires the first module
to have a first lesson), so the plan has zero images in spite of
totalLessons = 1. -/
theorem c7_counterexample :
    totalLessonCount [⟨"M0", []⟩, ⟨"M1", [⟨"L", "c"⟩]⟩] = 1 ∧
    totalImagesOf
      (generateCourseMediaPlanModel "T" [⟨"M0", []⟩, ⟨"M1", [⟨"L", "c"⟩]⟩]
        (some [⟨0, []⟩, ⟨1, []⟩])) = 0 := ⟨by decide, by decide⟩

/-- C7 (amended): on the AI path the at-least-one-image guarantee
holds whenever the first module has at least one lesson (not merely
when the course has a lesson anywhere): then the plan after validation
has at least one image, and if validation alone produced zero images
the result is exactly the validated plan with one forced image on the
first lesson of the first module, with the deterministic fallback
prompt and placement max 1 (paragraphCount).  On the outer fallback
path, one lesson anywhere suffices for at least one image. -/
theorem c7_amended :
    (∀ (ct : String) (m0 : ModuleOutline) (ms : List ModuleOutline)
       (l0 : LessonOutline) (lt : List LessonOutline)
       (rawPlan : List ParsedModulePlan),
       m0.lessons = l0 :: lt →
       1 ≤ totalImagesOf (generateCourseMediaPlanModel ct (m0 :: ms) (some rawPlan)) ∧
       (totalImagesOf (validatePlan ct (m0 :: ms) rawPlan) = 0 →
         ∃ p0 rest, validatePlan ct (m0 :: ms) rawPlan = p0 :: rest ∧
           generateCourseMediaPlanModel ct (m0 :: ms) (some rawPlan) =
             { p0 with lessons := p0.lessons.set 0 (forcedLesson ct m0 l0) } ::
               rest ∧
           forcedLesson ct m0 l0 =
             ⟨0, [⟨generateFallbackImagePrompt ct m0.module_title
                    l0.lesson_title l0.content,
                  "Illustration for " ++ l0.lesson_title,
                  ((max 1 (paragraphCount l0.content) : Nat) : Int)⟩]⟩)) ∧
    (∀ (ct : String) (modules : List ModuleOutline),
       1 ≤ totalLessonCount modules →
       1 ≤ totalImagesOf (generateFallbackMediaPlan ct modules)) := by
  constructor
  · intro ct m0 ms l0 lt rawPlan hm0
    have hcons : validatePlan ct (m0 :: ms) rawPlan =
        validateModule ct rawPlan 0 m0 ::
          mapWithIdx (validateModule ct rawPlan) 1 ms := rfl
    by_cases hti : totalImagesOf (validatePlan ct (m0 :: ms) rawPlan) = 0
    · have hlen : (validateModule ct rawPlan 0 m0).lessons.length = lt.length + 1 := by
        rw [validateModule_lessons_length, hm0, List.length_cons]
      obtain ⟨x, xs, hx⟩ :
          ∃ x xs, (validateModule ct rawPlan 0 m0).lessons = x :: xs := by
        cases hc : (validateModule ct rawPlan 0 m0).lessons with
        | nil => rw [hc] at hlen; simp at hlen
        | cons a b => exact ⟨a, b, rfl⟩
      have hresult : generateCourseMediaPlanModel ct (m0 :: ms) (some rawPlan) =
          { validateModule ct rawPlan 0 m0 with
            lessons := (validateModule ct rawPlan 0 m0).lessons.set 0
              (forcedLesson ct m0 l0) } ::
            mapWithIdx (validateModule ct rawPlan) 1 ms := by
        show addSafetyNet ct (m0 :: ms) (validatePlan ct (m0 :: ms) rawPlan) = _
        unfold addSafetyNet
        dsimp only
        rw [hm0]
        dsimp only
        rw [if_pos hti]
        rfl
      constructor
      · rw [hresult, totalImagesOf_cons]
        dsimp only
        rw [hx, List.set_cons_zero]
        simp only [forcedLesson, List.map_cons, List.sum_cons, List.length_singleton]
        omega
      · intro _
        exact ⟨validateModule ct rawPlan 0 m0,
          mapWithIdx (validateModule ct rawPlan) 1 ms, hcons, hresult, rfl⟩
    · have h1 : 1 ≤ totalImagesOf (validatePlan ct (m0 :: ms) rawPlan) :=
        Nat.one_le_iff_ne_zero.mpr hti
      have hmodel : generateCourseMediaPlanModel ct (m0 :: ms) (some rawPlan) =
          validatePlan ct (m0 :: ms) rawPlan := by
        show addSafetyNet ct (m0 :: ms) (validatePlan ct (m0 :: ms) rawPlan) = _
        unfold addSafetyNet
        dsimp only
        rw [hm0]
        dsimp only
        rw [if_neg hti]
      exact ⟨hmodel ▸ h1, fun h0 => absurd h0 hti⟩
  · intro ct modules htot
    obtain ⟨m, hmem, hne⟩ := exists_nonempty_module modules htot
    have hlen : 1 ≤ modules.length := List.length_pos_of_mem hmem
    have htarget : 1 ≤ fallbackTarget modules := by
      unfold fallbackTarget
      refine le_min hlen ?_
      have h5 : (1 : Nat) * 5 ≤ totalLessonCount modules + 4 := by omega
      exact (Nat.le_div_iff_mul_le (by norm_num)).mpr h5
    exact fallbackModulesGo_total ct (fallbackTarget modules) modules 0 0
      htarget ⟨m, hmem, hne⟩

/-- Witness for c7_amended at a concrete zero-image raw plan on a
one-module one-lesson outline (AI path) and a concrete outline
(fallback path). -/
theorem c7_amended_witness :
    (1 ≤ totalImagesOf
        (generateCourseMediaPlanModel "T" [⟨"M", [⟨"L", "c"⟩]⟩] (some [⟨0, []⟩]))) ∧
    1 ≤ totalImagesOf (generateFallbackMediaPlan "T" [⟨"M", [⟨"L", "c"⟩]⟩]) :=
  ⟨((c7_amended.1 "T" ⟨"M", [⟨"L", "c"⟩]⟩ [] ⟨"L", "c"⟩ [] [⟨0, []⟩]) rfl).1,
    c7_amended.2 "T" [⟨"M", [⟨"L", "c"⟩]⟩] (by decide)⟩

end CourseGen
